import Mathlib

/-!
# Verification of `ytdl_helper.py`

A shallow embedding of the command-line wrapper `src/ytdl_helper.py` around the
external `yt_dlp` download library, together with proofs of the specification
claims about it.

Modelling conventions:
* Python `Optional` values become `Option`; a `dict.get` that may miss becomes
  an `Option` field.
* Python truthiness of an optional string (`if x:` is false for `None` and for
  the empty string) is `pyTruthy`; for an optional number (`None` and `0` are
  falsy) it is `pyTruthyNat`.
* The external library (`yt_dlp.YoutubeDL.extract_info`, `prepare_filename`,
  `os.path.isfile`) is an environment of functions; `extract_info` may raise,
  which is modelled as `Except`.
* Observable behaviour (library calls, log lines, stdout writes) is recorded as
  a trace of events, so ordering claims become statements about the trace.
* Byte counts are modelled as `Nat` and the percentage arithmetic of the
  progress hook is carried out in `ℚ` (CPython floats are not modelled; the
  claims are about the arithmetic expression and its division guard).
-/

namespace YtdlHelper

/-- Python truthiness of an optional string: `None` and `""` are falsy. -/
def pyTruthy (o : Option String) : Bool :=
  o.getD "" != ""

/-- Python truthiness of an optional number: `None` and `0` are falsy. -/
def pyTruthyNat (o : Option Nat) : Bool :=
  o.getD 0 != 0

/-- Python `a or b` on optional numbers: `a` if truthy, else `b`. -/
def pyOrNat (a b : Option Nat) : Option Nat :=
  if pyTruthyNat a then a else b

/-- Python `a or b` on optional strings: `a` if truthy, else `b`. -/
def pyOrStr (a b : Option String) : Option String :=
  if pyTruthy a then a else b

/-- Python `str.strip()` on a character list: drop whitespace from both ends. -/
def stripChars (l : List Char) : List Char :=
  ((l.dropWhile Char.isWhitespace).reverse.dropWhile Char.isWhitespace).reverse

/-- Python `str.strip()`. -/
def pyStrip (s : String) : String :=
  ⟨stripChars s.data⟩

/-- Splitting a character list on a separator character; on the empty list it
yields `[[]]`, matching Python `str.split(sep)` with a one-character `sep`. -/
def splitOnChar (c : Char) : List Char → List (List Char)
  | [] => [[]]
  | x :: xs =>
    let r := splitOnChar c xs
    if x == c then [] :: r
    else
      match r with
      | [] => [[x]]
      | h :: t => (x :: h) :: t

/-- Python string split on a one-character separator. -/
def pySplit (sep : Char) (s : String) : List String :=
  (splitOnChar sep s.data).map fun l => String.mk l

/-- The comprehension on line 319 of the source: split the langs string on
commas, keep the pieces whose stripped form is non-empty, stripped. -/
def parseLangs (s : String) : List String :=
  ((pySplit ',' s).filter fun t => pyStrip t != "").map pyStrip

/-- A value stored in one of the fixed four post-processor dictionaries. -/
inductive PPVal where
  | str (s : String)
  | bool (b : Bool)
deriving Repr, DecidableEq

/-- A value of the yt-dlp options dictionary built by `build_ytdl_opts`. -/
inductive OptVal where
  /-- a string value -/
  | str (s : String)
  /-- a boolean value -/
  | bool (b : Bool)
  /-- an integer value -/
  | nat (n : Nat)
  /-- a list of strings, e.g. `subtitleslangs` -/
  | strList (l : List String)
  /-- the nested paths dict carrying the home directory -/
  | pathsHome (dir : String)
  /-- the `progress_hooks` list `[progress_hook]` -/
  | hookList
  /-- the `postprocessors` list of dictionaries -/
  | ppList (ps : List (List (String × PPVal)))
deriving Repr, DecidableEq

/-- The options dictionary: an association list keyed by strings, in Python
dict insertion order. -/
abbrev YdlOpts := List (String × OptVal)

/-- First-match lookup in the options dictionary. -/
def lookupOpt (k : String) : YdlOpts → Option OptVal
  | [] => none
  | p :: rest => if p.1 = k then some p.2 else lookupOpt k rest

/-- The fixed four-entry `postprocessors` list of `build_ytdl_opts`. -/
def fixedPostprocessors : List (List (String × PPVal)) :=
  [ [("key", .str "FFmpegVideoRemuxer"), ("preferedformat", .str "mp4")],
    [("key", .str "FFmpegThumbnailsConvertor"), ("format", .str "jpg")],
    [("key", .str "EmbedThumbnail"), ("already_have_thumbnail", .bool true)],
    [("key", .str "FFmpegMetadata")] ]

/-- The function build_ytdl_opts (lines 72-165 of the source): the dict literal with
its conditional `paths` splice, followed by the conditional assignments, which
append fresh keys in insertion order. -/
def build_ytdl_opts (output_dir : Option String) (cookies_file : Option String)
    (langs : List String) (ffmpeg_location : Option String)
    (quiet : Bool) (auto_sub : Bool) (no_playlist : Bool)
    (playlist_items : Option String)
    (write_infojson : Bool) (clean_infojson : Bool) : YdlOpts :=
  [ ("outtmpl", .str "%(uploader)s - %(title)s.%(ext)s"),
    ("windowsfilenames", .bool true) ]
  ++ (if pyTruthy output_dir then [("paths", .pathsHome (output_dir.getD ""))] else [])
  ++ [ ("format", .str "bv*+ba/b"),
       ("merge_output_format", .str "mp4"),
       ("writesubtitles", .bool true),
       ("embedsubtitles", .bool true),
       ("subtitleslangs", .strList langs),
       ("subtitlesformat", .str "srt/best"),
       ("writethumbnail", .bool true),
       ("embedthumbnail", .bool true),
       ("retries", .nat 10),
       ("fragment_retries", .nat 10),
       ("continuedl", .bool true),
       ("concurrent_fragment_downloads", .nat 5),
       ("quiet", .bool quiet),
       ("no_warnings", .bool false),
       ("ignoreerrors", .bool false),
       ("progress_hooks", .hookList),
       ("postprocessors", .ppList fixedPostprocessors) ]
  ++ (if pyTruthy cookies_file then [("cookiefile", .str (cookies_file.getD ""))] else [])
  ++ (if pyTruthy ffmpeg_location then [("ffmpeg_location", .str (ffmpeg_location.getD ""))] else [])
  ++ (if auto_sub then [("writeautomaticsub", .bool true)] else [])
  ++ (if no_playlist then [("noplaylist", .bool true)] else [])
  ++ (if pyTruthy playlist_items then [("playlist_items", .str (playlist_items.getD ""))] else [])
  ++ (if write_infojson then
        ("writeinfojson", .bool true)
          :: (if clean_infojson then [("clean_infojson", .bool true)] else [])
      else [])

/-! ## The progress hook -/

/-- The event dictionary handed to `progress_hook` by yt-dlp; a `none` field
models an absent key.  The field `info_dict_filename` models the nested
lookup of the filename inside the info dict, when present. -/
structure PEvent where
  status : Option String := none
  total_bytes : Option Nat := none
  total_bytes_estimate : Option Nat := none
  downloaded_bytes : Option Nat := none
  speed : Option Nat := none
  eta : Option Nat := none
  filename : Option String := none
  info_dict_filename : Option String := none
deriving Repr, DecidableEq

/-- One observable output of `progress_hook`: either the stdout progress line
(with its computed percentage) or the Processed log line. -/
inductive HookOut where
  | progressLine (pct : ℚ) (speed : Nat) (eta : Nat)
  | logInfo (filename : String)
deriving Repr, DecidableEq

/-- The hook progress_hook (lines 35-69 of the source), as the list of outputs
it produces for one event. -/
def progress_hook (d : PEvent) : List HookOut :=
  if d.status = some "downloading" then
    let total := pyOrNat d.total_bytes d.total_bytes_estimate
    let downloaded := d.downloaded_bytes.getD 0
    if pyTruthyNat total then
      [.progressLine ((downloaded : ℚ) / ((total.getD 0 : Nat) : ℚ) * 100)
        (d.speed.getD 0) (d.eta.getD 0)]
    else []
  else if d.status = some "finished" ∨ d.status = some "post_process" then
    let filename := pyOrStr d.filename d.info_dict_filename
    if pyTruthy filename then [.logInfo (filename.getD "")] else []
  else []

/-! ## Argument parsing

`parse_args` declares its arguments on an `argparse.ArgumentParser` and then
normalizes the result.  The parser itself is external-library code; the model
below covers its documented behaviour for exactly the argument set declared on
lines 265-316: value-taking flags consume the following token, `store_true`
flags set a boolean, `--log-level` validates its choices, any other token
starting with `-` is rejected, other tokens are positionals, and the
one-or-more arity of the positional
demands at least one positional on pain of a parse error (argparse exits). -/

/-- The raw namespace as argparse fills it (defaults from the
`add_argument` calls); `urls` is accumulated in reverse while parsing. -/
structure RawArgs where
  urls : List String := []
  output_dir : Option String := none
  cookies : Option String := none
  langs : String := "zh-Hans,zh,zh-CN,en"
  ffmpeg : Option String := none
  quiet : Bool := false
  log_level : String := "INFO"
  auto_sub : Bool := false
  no_playlist : Bool := false
  playlist_items : Option String := none
  write_infojson : Bool := false
  clean_infojson : Bool := false
deriving Repr, DecidableEq

/-- Whether argparse treats a token as an option: it begins with `-`
(a lone `-` is a positional). -/
def isOptionLike (t : String) : Bool :=
  match t.data with
  | c :: _ => c == '-'
  | [] => false

/-- How the parser treats one command-line token. -/
inductive Tok where
  /-- a flag that consumes the next token as its value -/
  | valFlag (apply : String → RawArgs → Except String RawArgs)
  /-- a `store_true` flag -/
  | boolFlag (apply : RawArgs → RawArgs)
  /-- a positional URL argument -/
  | positional
  /-- an unrecognized option -/
  | unknown

/-- Classify one token against the argument set declared in `parse_args`. -/
def classify (t : String) : Tok :=
  if t = "-o" ∨ t = "--output-dir" then
    .valFlag fun v a => .ok { a with output_dir := some v }
  else if t = "-c" ∨ t = "--cookies" then
    .valFlag fun v a => .ok { a with cookies := some v }
  else if t = "-l" ∨ t = "--langs" then
    .valFlag fun v a => .ok { a with langs := v }
  else if t = "--ffmpeg" then
    .valFlag fun v a => .ok { a with ffmpeg := some v }
  else if t = "--log-level" then
    .valFlag fun v a =>
      if v = "DEBUG" ∨ v = "INFO" ∨ v = "WARNING" ∨ v = "ERROR" then
        .ok { a with log_level := v }
      else .error "argument --log-level: invalid choice"
  else if t = "--playlist-items" then
    .valFlag fun v a => .ok { a with playlist_items := some v }
  else if t = "-q" ∨ t = "--quiet" then
    .boolFlag fun a => { a with quiet := true }
  else if t = "--auto-sub" then
    .boolFlag fun a => { a with auto_sub := true }
  else if t = "--no-playlist" then
    .boolFlag fun a => { a with no_playlist := true }
  else if t = "--write-infojson" then
    .boolFlag fun a => { a with write_infojson := true }
  else if t = "--clean-infojson" then
    .boolFlag fun a => { a with clean_infojson := true }
  else if isOptionLike t ∧ t ≠ "-" then .unknown
  else .positional

/-- The parsing loop over the argument vector; `.error` models the parser
exiting with an argument error. -/
def parseTokens : List String → RawArgs → Except String RawArgs
  | [], acc =>
    if acc.urls.isEmpty then
      .error "the following arguments are required: urls"
    else .ok { acc with urls := acc.urls.reverse }
  | t :: rest, acc =>
    match classify t with
    | .positional => parseTokens rest { acc with urls := t :: acc.urls }
    | .boolFlag f => parseTokens rest (f acc)
    | .unknown => .error ("unrecognized arguments: " ++ t)
    | .valFlag f =>
      match rest with
      | [] => .error ("argument " ++ t ++ ": expected one argument")
      | v :: rest2 =>
        match f v acc with
        | .ok acc2 => parseTokens rest2 acc2
        | .error e => .error e
termination_by structural l => l

/-- The namespace returned by `parse_args` after its normalization. -/
structure Args where
  urls : List String
  output_dir : Option String
  cookies : Option String
  langs : List String
  ffmpeg : Option String
  quiet : Bool
  log_level : String
  auto_sub : Bool
  no_playlist : Bool
  playlist_items : Option String
  write_infojson : Bool
  clean_infojson : Bool
deriving Repr, DecidableEq

/-- The post-processing at the end of `parse_args` (lines 319-328): split and
strip `langs`; replace a truthy `cookies` path that is not an existing file
by `None` (with a warning).  `isfile` is `os.path.isfile` at parse time. -/
def normalizeArgs (isfile : String → Bool) (r : RawArgs) : Args :=
  { urls := r.urls
    output_dir := r.output_dir
    cookies :=
      if pyTruthy r.cookies && !isfile (r.cookies.getD "") then none else r.cookies
    langs := parseLangs r.langs
    ffmpeg := r.ffmpeg
    quiet := r.quiet
    log_level := r.log_level
    auto_sub := r.auto_sub
    no_playlist := r.no_playlist
    playlist_items := r.playlist_items
    write_infojson := r.write_infojson
    clean_infojson := r.clean_infojson }

/-- The function parse_args (lines 248-328 of the source). -/
def parse_args (isfile : String → Bool) (argv : List String) : Except String Args :=
  match parseTokens argv {} with
  | .error e => .error e
  | .ok r => .ok (normalizeArgs isfile r)

/-! ## The download loop and `main` -/

/-- The external world as seen by `download_videos`:
`extract` is `YoutubeDL.extract_info(url, download=True)`, which either
returns an info object (modelled by a string) or raises; `prep` is
`YoutubeDL.prepare_filename` (modelled total; it is a pure formatter);
`isfile` is `os.path.isfile` at download time. -/
structure DlEnv where
  extract : String → Except String String
  prep : String → String
  isfile : String → Bool

/-- Whether `extract_info` raises on this URL. -/
def raises (env : DlEnv) (u : String) : Bool :=
  match env.extract u with
  | .ok _ => false
  | .error _ => true

/-- One observable event of a `main` / `download_videos` run. -/
inductive Ev where
  /-- the parser returned this namespace -/
  | parsed (a : Args)
  /-- the parser exited with an argument error -/
  | parseError (msg : String)
  /-- the options were built and the downloader object entered -/
  | buildOpts (opts : YdlOpts)
  /-- the debug log line printing a projection of the options -/
  | debugOpts
  /-- the extract_info library call is invoked with these options -/
  | extractCall (opts : YdlOpts) (url : String)
  /-- the log line naming the downloaded file -/
  | logDownloaded (path : String)
  /-- the log line recording a per-URL failure -/
  | logFailed (url : String)
  /-- the final `logging.warning` listing the failed URLs -/
  | warnFailed (failed : List String)

/-- The expression `args.cookies if (args.cookies and os.path.isfile(args.cookies)) else None`
(lines 196-198). -/
def cookiesForDownload (isfile : String → Bool) (cookies : Option String) : Option String :=
  if pyTruthy cookies && isfile (cookies.getD "") then cookies else none

/-- The options dictionary `download_videos` builds from the parsed args
(lines 194-207). -/
def optsOf (isfile : String → Bool) (a : Args) : YdlOpts :=
  build_ytdl_opts a.output_dir (cookiesForDownload isfile a.cookies) a.langs
    a.ffmpeg a.quiet a.auto_sub a.no_playlist a.playlist_items
    a.write_infojson a.clean_infojson

/-- The `for url in urls` loop of `download_videos` (lines 231-238): per URL,
call `extract_info`; on success log the prepared filename, on an exception log
the failure and append the URL to `failed`.  Returns the event trace and the
`failed` list. -/
def downloadLoop (env : DlEnv) (opts : YdlOpts) : List String → List Ev × List String
  | [] => ([], [])
  | u :: rest =>
    let tail := downloadLoop env opts rest
    match env.extract u with
    | .ok info =>
      (.extractCall opts u :: .logDownloaded (env.prep info) :: tail.1, tail.2)
    | .error _ =>
      (.extractCall opts u :: .logFailed u :: tail.1, u :: tail.2)

/-- `download_videos` (lines 168-245), as the event trace it produces.  The
function is total: a per-item exception is caught inside the loop and never
propagates out. -/
def download_videos (env : DlEnv) (urls : List String) (args : Args) : List Ev :=
  let opts := optsOf env.isfile args
  let r := downloadLoop env opts urls
  .buildOpts opts :: .debugOpts :: r.1
    ++ (if r.2.isEmpty then [] else [.warnFailed r.2])

/-- `main` (lines 331-356), as the event trace it produces. -/
def main (env : DlEnv) (argv : List String) : List Ev :=
  match parse_args env.isfile argv with
  | .error e => [.parseError e]
  | .ok args => .parsed args :: download_videos env args.urls args

/-- The URLs of the `extractCall` events of a trace, in order. -/
def extractedUrls (t : List Ev) : List String :=
  t.filterMap fun e =>
    match e with
    | .extractCall _ u => some u
    | _ => none

/-- The `extractCall` events of a trace as (options, url) pairs, in order. -/
def extractCalls (t : List Ev) : List (YdlOpts × String) :=
  t.filterMap fun e =>
    match e with
    | .extractCall o u => some (o, u)
    | _ => none

/-- The options dictionaries of the `buildOpts` events of a trace, in order. -/
def builtOpts (t : List Ev) : List YdlOpts :=
  t.filterMap fun e =>
    match e with
    | .buildOpts o => some o
    | _ => none

/-- The URLs of the `logFailed` events of a trace, in order: the per-item
failures that were logged. -/
def failedUrls (t : List Ev) : List String :=
  t.filterMap fun e =>
    match e with
    | .logFailed u => some u
    | _ => none

/-- The event that concludes the handling of one URL: on success the
`Downloaded:` log line with the prepared filename, on an exception the
`Download failed:` log line. -/
def resultEv (env : DlEnv) (u : String) : Ev :=
  match env.extract u with
  | .ok info => .logDownloaded (env.prep info)
  | .error _ => .logFailed u

/-- The per-URL segment of the expected trace: the library call immediately
followed by its result log line. -/
def perUrlTrace (env : DlEnv) (opts : YdlOpts) : List String → List Ev
  | [] => []
  | u :: rest => .extractCall opts u :: resultEv env u :: perUrlTrace env opts rest

/-! ## Trace lemmas for the download loop -/

theorem downloadLoop_fst (env : DlEnv) (opts : YdlOpts) (urls : List String) :
    (downloadLoop env opts urls).1 = perUrlTrace env opts urls := by
  induction urls with
  | nil => rfl
  | cons u rest ih =>
    cases h : env.extract u <;>
      simp [downloadLoop, perUrlTrace, resultEv, h, ih]

theorem downloadLoop_snd (env : DlEnv) (opts : YdlOpts) (urls : List String) :
    (downloadLoop env opts urls).2 = urls.filter (raises env) := by
  induction urls with
  | nil => rfl
  | cons u rest ih =>
    cases h : env.extract u <;>
      simp [downloadLoop, raises, List.filter_cons, h, ih]

@[simp] theorem extractedUrls_nil : extractedUrls [] = [] := rfl

@[simp] theorem extractedUrls_cons_extractCall (o : YdlOpts) (u : String) (t : List Ev) :
    extractedUrls (.extractCall o u :: t) = u :: extractedUrls t := rfl

@[simp] theorem extractedUrls_cons_buildOpts (o : YdlOpts) (t : List Ev) :
    extractedUrls (.buildOpts o :: t) = extractedUrls t := rfl

@[simp] theorem extractedUrls_cons_debugOpts (t : List Ev) :
    extractedUrls (.debugOpts :: t) = extractedUrls t := rfl

@[simp] theorem extractedUrls_cons_logDownloaded (p : String) (t : List Ev) :
    extractedUrls (.logDownloaded p :: t) = extractedUrls t := rfl

@[simp] theorem extractedUrls_cons_logFailed (u : String) (t : List Ev) :
    extractedUrls (.logFailed u :: t) = extractedUrls t := rfl

@[simp] theorem extractedUrls_cons_warnFailed (l : List String) (t : List Ev) :
    extractedUrls (.warnFailed l :: t) = extractedUrls t := rfl

@[simp] theorem extractedUrls_append (a b : List Ev) :
    extractedUrls (a ++ b) = extractedUrls a ++ extractedUrls b := by
  simp [extractedUrls]

@[simp] theorem extractCalls_nil : extractCalls [] = [] := rfl

@[simp] theorem extractCalls_cons_extractCall (o : YdlOpts) (u : String) (t : List Ev) :
    extractCalls (.extractCall o u :: t) = (o, u) :: extractCalls t := rfl

@[simp] theorem extractCalls_cons_buildOpts (o : YdlOpts) (t : List Ev) :
    extractCalls (.buildOpts o :: t) = extractCalls t := rfl

@[simp] theorem extractCalls_cons_debugOpts (t : List Ev) :
    extractCalls (.debugOpts :: t) = extractCalls t := rfl

@[simp] theorem extractCalls_cons_logDownloaded (p : String) (t : List Ev) :
    extractCalls (.logDownloaded p :: t) = extractCalls t := rfl

@[simp] theorem extractCalls_cons_logFailed (u : String) (t : List Ev) :
    extractCalls (.logFailed u :: t) = extractCalls t := rfl

@[simp] theorem extractCalls_cons_warnFailed (l : List String) (t : List Ev) :
    extractCalls (.warnFailed l :: t) = extractCalls t := rfl

@[simp] theorem extractCalls_append (a b : List Ev) :
    extractCalls (a ++ b) = extractCalls a ++ extractCalls b := by
  simp [extractCalls]

@[simp] theorem failedUrls_nil : failedUrls [] = [] := rfl

@[simp] theorem failedUrls_cons_extractCall (o : YdlOpts) (u : String) (t : List Ev) :
    failedUrls (.extractCall o u :: t) = failedUrls t := rfl

@[simp] theorem failedUrls_cons_buildOpts (o : YdlOpts) (t : List Ev) :
    failedUrls (.buildOpts o :: t) = failedUrls t := rfl

@[simp] theorem failedUrls_cons_debugOpts (t : List Ev) :
    failedUrls (.debugOpts :: t) = failedUrls t := rfl

@[simp] theorem failedUrls_cons_logDownloaded (p : String) (t : List Ev) :
    failedUrls (.logDownloaded p :: t) = failedUrls t := rfl

@[simp] theorem failedUrls_cons_logFailed (u : String) (t : List Ev) :
    failedUrls (.logFailed u :: t) = u :: failedUrls t := rfl

@[simp] theorem failedUrls_cons_warnFailed (l : List String) (t : List Ev) :
    failedUrls (.warnFailed l :: t) = failedUrls t := rfl

@[simp] theorem failedUrls_append (a b : List Ev) :
    failedUrls (a ++ b) = failedUrls a ++ failedUrls b := by
  simp [failedUrls]

@[simp] theorem builtOpts_nil : builtOpts [] = [] := rfl

@[simp] theorem builtOpts_cons_extractCall (o : YdlOpts) (u : String) (t : List Ev) :
    builtOpts (.extractCall o u :: t) = builtOpts t := rfl

@[simp] theorem builtOpts_cons_buildOpts (o : YdlOpts) (t : List Ev) :
    builtOpts (.buildOpts o :: t) = o :: builtOpts t := rfl

@[simp] theorem builtOpts_cons_debugOpts (t : List Ev) :
    builtOpts (.debugOpts :: t) = builtOpts t := rfl

@[simp] theorem builtOpts_cons_logDownloaded (p : String) (t : List Ev) :
    builtOpts (.logDownloaded p :: t) = builtOpts t := rfl

@[simp] theorem builtOpts_cons_logFailed (u : String) (t : List Ev) :
    builtOpts (.logFailed u :: t) = builtOpts t := rfl

@[simp] theorem builtOpts_cons_warnFailed (l : List String) (t : List Ev) :
    builtOpts (.warnFailed l :: t) = builtOpts t := rfl

@[simp] theorem builtOpts_append (a b : List Ev) :
    builtOpts (a ++ b) = builtOpts a ++ builtOpts b := by
  simp [builtOpts]

theorem extractedUrls_perUrlTrace (env : DlEnv) (opts : YdlOpts) (urls : List String) :
    extractedUrls (perUrlTrace env opts urls) = urls := by
  induction urls with
  | nil => rfl
  | cons u rest ih =>
    cases h : env.extract u <;> simp [perUrlTrace, resultEv, h, ih]

theorem extractCalls_perUrlTrace (env : DlEnv) (opts : YdlOpts) (urls : List String) :
    extractCalls (perUrlTrace env opts urls) = urls.map fun u => (opts, u) := by
  induction urls with
  | nil => rfl
  | cons u rest ih =>
    cases h : env.extract u <;> simp [perUrlTrace, resultEv, h, ih]

theorem failedUrls_perUrlTrace (env : DlEnv) (opts : YdlOpts) (urls : List String) :
    failedUrls (perUrlTrace env opts urls) = urls.filter (raises env) := by
  induction urls with
  | nil => rfl
  | cons u rest ih =>
    cases h : env.extract u <;>
      simp [perUrlTrace, resultEv, raises, List.filter_cons, h, ih]

theorem builtOpts_perUrlTrace (env : DlEnv) (opts : YdlOpts) (urls : List String) :
    builtOpts (perUrlTrace env opts urls) = [] := by
  induction urls with
  | nil => rfl
  | cons u rest ih =>
    cases h : env.extract u <;> simp [perUrlTrace, resultEv, h, ih]

theorem download_videos_trace (env : DlEnv) (urls : List String) (args : Args) :
    download_videos env urls args =
      .buildOpts (optsOf env.isfile args) :: .debugOpts ::
        (perUrlTrace env (optsOf env.isfile args) urls
          ++ (if (urls.filter (raises env)).isEmpty then []
              else [.warnFailed (urls.filter (raises env))])) := by
  simp [download_videos, downloadLoop_fst, downloadLoop_snd]

/-- Claim C1: `download_videos` attempts every URL: each URL in the input list
gives rise to exactly one `extract_info` call, in input order, even after
earlier failures; the `failed` list accumulated by the loop (and equally the
sequence of `Download failed` log lines) is exactly the sub-list of input URLs
whose `extract_info` call raised, in input order.  `download_videos` is a
total function into traces: a per-item exception is caught and never
propagates out of it. -/
theorem download_videos_attempts_all_collects_failures
    (env : DlEnv) (urls : List String) (args : Args) :
    extractedUrls (download_videos env urls args) = urls ∧
    failedUrls (download_videos env urls args) = urls.filter (raises env) ∧
    (downloadLoop env (optsOf env.isfile args) urls).2 = urls.filter (raises env) := by
  refine ⟨?_, ?_, downloadLoop_snd env _ urls⟩ <;>
    rw [download_videos_trace] <;> split <;>
    simp [extractedUrls_perUrlTrace, failedUrls_perUrlTrace]

/-- Claim C6: `download_videos` is sequential: the options dictionary is built
exactly once, and the download routine of the library is invoked
exactly once per input URL, in input order, every call carrying that single
shared options dictionary. -/
theorem download_videos_sequential (env : DlEnv) (urls : List String) (args : Args) :
    builtOpts (download_videos env urls args) = [optsOf env.isfile args] ∧
    extractCalls (download_videos env urls args) =
      urls.map fun u => (optsOf env.isfile args, u) := by
  rw [download_videos_trace]
  constructor <;> split <;>
    simp [builtOpts_perUrlTrace, extractCalls_perUrlTrace]

/-- Claim C8: `main` runs in the fixed order: parse the flags, then build the
options, then per URL call the library and only afterwards log the result
for that URL; the trailing failure summary comes last.  In particular no
`extractCall` event precedes the `parsed` and `buildOpts` events. -/
theorem main_trace_order (env : DlEnv) (argv : List String) (args : Args)
    (h : parse_args env.isfile argv = .ok args) :
    main env argv =
      .parsed args :: .buildOpts (optsOf env.isfile args) :: .debugOpts ::
        (perUrlTrace env (optsOf env.isfile args) args.urls
          ++ (if (args.urls.filter (raises env)).isEmpty then []
              else [.warnFailed (args.urls.filter (raises env))])) := by
  simp [main, h, download_videos_trace]

/-- A concrete environment whose `extract_info` always raises. -/
def envAllFail : DlEnv :=
  { extract := fun _ => .error "network unreachable"
    prep := fun s => s
    isfile := fun _ => false }

/-- The namespace `parse_args` produces for the argument vector
`["http://u"]`. -/
def argsHttpU : Args :=
  { urls := ["http://u"]
    output_dir := none
    cookies := none
    langs := ["zh-Hans", "zh", "zh-CN", "en"]
    ffmpeg := none
    quiet := false
    log_level := "INFO"
    auto_sub := false
    no_playlist := false
    playlist_items := none
    write_infojson := false
    clean_infojson := false }

/-- Witness for C8 at the concrete argument vector `["http://u"]` under an
environment where the single download raises. -/
theorem main_trace_order_witness :
    main envAllFail ["http://u"] =
      [.parsed argsHttpU, .buildOpts (optsOf envAllFail.isfile argsHttpU),
        .debugOpts, .extractCall (optsOf envAllFail.isfile argsHttpU) "http://u",
        .logFailed "http://u", .warnFailed ["http://u"]] := by
  rw [main_trace_order envAllFail ["http://u"] argsHttpU rfl]
  rfl

/-! ## Lookup lemmas for the options dictionary -/

theorem lookupOpt_append (k : String) (l1 l2 : YdlOpts) :
    lookupOpt k (l1 ++ l2) =
      match lookupOpt k l1 with
      | some v => some v
      | none => lookupOpt k l2 := by
  induction l1 with
  | nil => rfl
  | cons p rest ih =>
    by_cases h : p.1 = k <;> simp [lookupOpt, h, ih]

theorem lookupOpt_ite_nil (k : String) (c : Prop) [Decidable c] (l : YdlOpts) :
    lookupOpt k (if c then l else []) = if c then lookupOpt k l else none := by
  split <;> rfl

theorem lookupOpt_eq_some_mem (k : String) (v : OptVal) :
    ∀ l : YdlOpts, lookupOpt k l = some v → (k, v) ∈ l := by
  intro l
  induction l with
  | nil => intro h; simp [lookupOpt] at h
  | cons p rest ih =>
    intro h
    simp only [lookupOpt] at h
    split at h
    · rename_i hk
      cases h
      rw [← hk]
      simp
    · exact List.mem_cons_of_mem _ (ih h)

/-- Claim C7: For every combination of inputs, the options dictionary returned
by `build_ytdl_opts` carries the format-selection, subtitle, thumbnail and
post-processing settings: `format`, `writesubtitles`, `embedsubtitles`,
`subtitleslangs`, `writethumbnail`, `embedthumbnail` and `postprocessors` are
always present, with `subtitleslangs` bound to the `langs` argument and
`postprocessors` bound to the fixed four-entry post-processor list. -/
theorem build_ytdl_opts_core_keys (output_dir cookies_file : Option String)
    (langs : List String) (ffmpeg_location : Option String)
    (quiet auto_sub no_playlist : Bool) (playlist_items : Option String)
    (write_infojson clean_infojson : Bool) :
    lookupOpt "format"
        (build_ytdl_opts output_dir cookies_file langs ffmpeg_location quiet
          auto_sub no_playlist playlist_items write_infojson clean_infojson) =
      some (.str "bv*+ba/b") ∧
    lookupOpt "writesubtitles"
        (build_ytdl_opts output_dir cookies_file langs ffmpeg_location quiet
          auto_sub no_playlist playlist_items write_infojson clean_infojson) =
      some (.bool true) ∧
    lookupOpt "embedsubtitles"
        (build_ytdl_opts output_dir cookies_file langs ffmpeg_location quiet
          auto_sub no_playlist playlist_items write_infojson clean_infojson) =
      some (.bool true) ∧
    lookupOpt "subtitleslangs"
        (build_ytdl_opts output_dir cookies_file langs ffmpeg_location quiet
          auto_sub no_playlist playlist_items write_infojson clean_infojson) =
      some (.strList langs) ∧
    lookupOpt "writethumbnail"
        (build_ytdl_opts output_dir cookies_file langs ffmpeg_location quiet
          auto_sub no_playlist playlist_items write_infojson clean_infojson) =
      some (.bool true) ∧
    lookupOpt "embedthumbnail"
        (build_ytdl_opts output_dir cookies_file langs ffmpeg_location quiet
          auto_sub no_playlist playlist_items write_infojson clean_infojson) =
      some (.bool true) ∧
    lookupOpt "postprocessors"
        (build_ytdl_opts output_dir cookies_file langs ffmpeg_location quiet
          auto_sub no_playlist playlist_items write_infojson clean_infojson) =
      some (.ppList fixedPostprocessors) := by
  refine ⟨?_, ?_, ?_, ?_, ?_, ?_, ?_⟩ <;>
    by_cases h : pyTruthy output_dir <;>
    simp [build_ytdl_opts, lookupOpt, h]

/-- Claim C9: `clean_infojson` has no effect without `write_infojson`: the
`writeinfojson` key is present exactly when `write_infojson` is true, and the
`clean_infojson` key exactly when both flags are true; with `write_infojson`
false neither key occurs, even when `clean_infojson` is true. -/
theorem build_ytdl_opts_infojson (output_dir cookies_file : Option String)
    (langs : List String) (ffmpeg_location : Option String)
    (quiet auto_sub no_playlist : Bool) (playlist_items : Option String)
    (write_infojson clean_infojson : Bool) :
    lookupOpt "writeinfojson"
        (build_ytdl_opts output_dir cookies_file langs ffmpeg_location quiet
          auto_sub no_playlist playlist_items write_infojson clean_infojson) =
      (if write_infojson then some (.bool true) else none) ∧
    lookupOpt "clean_infojson"
        (build_ytdl_opts output_dir cookies_file langs ffmpeg_location quiet
          auto_sub no_playlist playlist_items write_infojson clean_infojson) =
      (if write_infojson && clean_infojson then some (.bool true) else none) := by
  cases write_infojson <;> cases clean_infojson <;>
    constructor <;>
    simp [build_ytdl_opts, lookupOpt_append, lookupOpt_ite_nil, lookupOpt]

/-! ## Stripping lemmas for the language list -/

theorem stripChars_eq_rdropWhile (l : List Char) :
    stripChars l = List.rdropWhile Char.isWhitespace (l.dropWhile Char.isWhitespace) := rfl

theorem stripChars_getLast_not_white (l : List Char) (c : Char)
    (h : (stripChars l).getLast? = some c) : c.isWhitespace = false := by
  have hne : stripChars l ≠ [] := by
    intro he
    rw [he] at h
    cases h
  rw [stripChars_eq_rdropWhile] at h hne
  have hlast :=
    List.rdropWhile_last_not Char.isWhitespace (l.dropWhile Char.isWhitespace) hne
  rw [List.getLast?_eq_getLast_of_ne_nil hne] at h
  have hc := Option.some.inj h
  rw [← hc]
  simpa using hlast

theorem stripChars_head_not_white (l : List Char) (c : Char)
    (h : (stripChars l).head? = some c) : c.isWhitespace = false := by
  have hne : stripChars l ≠ [] := by
    intro he
    rw [he] at h
    cases h
  obtain ⟨t, ht⟩ :=
    List.rdropWhile_prefix Char.isWhitespace (l.dropWhile Char.isWhitespace)
  rw [← stripChars_eq_rdropWhile] at ht
  have hdne : l.dropWhile Char.isWhitespace ≠ [] := by
    rw [← ht]
    intro happ
    exact hne (List.append_eq_nil.mp happ).1
  have hhead : (l.dropWhile Char.isWhitespace).head? = some c := by
    rw [← ht]
    cases hsc : stripChars l with
    | nil => exact absurd hsc hne
    | cons a s =>
      rw [hsc] at h
      simpa using h
  have hw := List.head_dropWhile_not Char.isWhitespace l hdne
  rw [List.head?_eq_head hdne] at hhead
  rw [← Option.some.inj hhead]
  exact hw

/-- Claim C3: Every entry of the `langs` list produced from a comma-separated
input string is a non-empty string with no leading and no trailing whitespace
character: the split pieces that strip to nothing are dropped, the rest are
stripped. -/
theorem parseLangs_entries (s lang : String) (h : lang ∈ parseLangs s) :
    lang ≠ "" ∧
    (∀ c, lang.data.head? = some c → c.isWhitespace = false) ∧
    (∀ c, lang.data.getLast? = some c → c.isWhitespace = false) := by
  obtain ⟨t, ht, rfl⟩ := List.mem_map.mp h
  have hne : pyStrip t ≠ "" := by
    have := (List.mem_filter.mp ht).2
    simpa using this
  refine ⟨hne, ?_, ?_⟩
  · intro c hc
    exact stripChars_head_not_white t.data c hc
  · intro c hc
    exact stripChars_getLast_not_white t.data c hc

/-- Witness for C3 on the concrete input `" ab , ,c"`, whose parsed language
list is `["ab", "c"]`. -/
theorem parseLangs_entries_witness :
    "ab" ∈ parseLangs " ab , ,c" ∧ "ab" ≠ "" := by
  have hm : "ab" ∈ parseLangs " ab , ,c" := by decide
  exact ⟨hm, (parseLangs_entries " ab , ,c" "ab" hm).1⟩

/-! ## The progress hook claims -/

/-- Claim C5: For a `downloading` event, `progress_hook` writes a progress line
iff the truthy total (`total_bytes`, or else `total_bytes_estimate`) is
present and non-zero; the printed percentage is `downloaded / total * 100`
with `downloaded_bytes` defaulting to `0`; and the division is guarded: its
divisor is non-zero whenever the line is written, so a missing or zero total
never divides by zero. -/
theorem progress_hook_downloading (d : PEvent) (h : d.status = some "downloading") :
    (progress_hook d = [] ↔
      pyTruthyNat (pyOrNat d.total_bytes d.total_bytes_estimate) = false) ∧
    (pyTruthyNat (pyOrNat d.total_bytes d.total_bytes_estimate) = true →
      progress_hook d =
        [.progressLine
          ((d.downloaded_bytes.getD 0 : ℚ) /
              ((pyOrNat d.total_bytes d.total_bytes_estimate).getD 0 : ℚ) * 100)
          (d.speed.getD 0) (d.eta.getD 0)]) ∧
    (pyTruthyNat (pyOrNat d.total_bytes d.total_bytes_estimate) = true →
      (((pyOrNat d.total_bytes d.total_bytes_estimate).getD 0 : Nat) : ℚ) ≠ 0) := by
  cases hT : pyTruthyNat (pyOrNat d.total_bytes d.total_bytes_estimate) with
  | false => simp [progress_hook, h, hT]
  | true =>
    refine ⟨by simp [progress_hook, h, hT], fun _ => by simp [progress_hook, h, hT], fun _ => ?_⟩
    have hnz : (pyOrNat d.total_bytes d.total_bytes_estimate).getD 0 ≠ 0 := by
      simpa [pyTruthyNat] using hT
    exact_mod_cast hnz

/-- A concrete `downloading` event: 5 of 10 bytes downloaded. -/
def evHalf : PEvent :=
  { status := some "downloading", total_bytes := some 10, downloaded_bytes := some 5 }

/-- Witness for C5: on `evHalf` the hook prints exactly the 50-percent line. -/
theorem progress_hook_downloading_witness :
    progress_hook evHalf = [.progressLine ((5 : ℚ) / (10 : ℚ) * 100) 0 0] := by
  have h := (progress_hook_downloading evHalf rfl).2.1 rfl
  simpa [evHalf, pyOrNat, pyTruthyNat] using h

/-- The claim that `progress_hook` produces output only for `downloading`
events fails on the code: a `finished` event carrying a filename makes it
produce the `Processed` log line (lines 66-69), so an event with a status
other than `downloading` can produce output. -/
theorem progress_hook_logs_on_finished :
    progress_hook { status := some "finished", filename := some "f.mp4" } =
      [.logInfo "f.mp4"] ∧
    (some "finished" : Option String) ≠ some "downloading" ∧
    ([.logInfo "f.mp4"] : List HookOut) ≠ [] := by
  refine ⟨rfl, by decide, by decide⟩

/-- Claim C4, amended: For a `downloading` event the only output
`progress_hook` can produce is the progress-percentage line; for a `finished`
or `post_process` event the only output it can produce is the `Processed`
filename log line (written when a filename is known); for an event with any
other status it produces no output. -/
theorem progress_hook_outputs (d : PEvent) :
    (d.status = some "downloading" →
      ∀ o ∈ progress_hook d, ∃ pct sp eta, o = .progressLine pct sp eta) ∧
    ((d.status = some "finished" ∨ d.status = some "post_process") →
      ∀ o ∈ progress_hook d, ∃ f, o = .logInfo f) ∧
    (d.status ≠ some "downloading" → d.status ≠ some "finished" →
      d.status ≠ some "post_process" → progress_hook d = []) := by
  refine ⟨?_, ?_, ?_⟩
  · intro h o ho
    simp only [progress_hook, h, if_pos] at ho
    split at ho <;> simp_all
  · intro h o ho
    simp only [progress_hook] at ho
    rw [if_neg (by rcases h with h1 | h1 <;> simp [h1]), if_pos h] at ho
    split at ho
    · exact ⟨_, List.mem_singleton.mp ho⟩
    · cases ho
  · intro h1 h2 h3
    simp [progress_hook, h1, h2, h3]

/-- Witness for C4: an event with status `error` produces no output. -/
theorem progress_hook_outputs_witness :
    progress_hook { status := some "error" } = [] :=
  (progress_hook_outputs { status := some "error" }).2.2
    (by decide) (by decide) (by decide)

/-! ## Parser claims -/

theorem parseTokens_ok_urls :
    ∀ (l : List String) (acc r : RawArgs), parseTokens l acc = .ok r → r.urls ≠ [] := by
  intro l acc r
  induction l, acc using parseTokens.induct with
  | case1 acc hempty =>
    intro h
    simp only [parseTokens, hempty, if_pos] at h
    cases h
  | case2 acc hempty =>
    intro h
    simp only [parseTokens] at h
    rw [if_neg hempty] at h
    cases h
    simpa [List.isEmpty_iff] using hempty
  | case3 t rest acc hcls ih =>
    intro h
    simp only [parseTokens, hcls] at h
    exact ih h
  | case4 t rest acc f hcls ih =>
    intro h
    simp only [parseTokens, hcls] at h
    exact ih h
  | case5 t rest acc hcls =>
    intro h
    simp only [parseTokens, hcls] at h
    cases h
  | case6 t acc f hcls =>
    intro h
    simp only [parseTokens, hcls] at h
    cases h
  | case7 t acc f hcls v rest2 acc2 hf ih =>
    intro h
    simp only [parseTokens, hcls, hf] at h
    exact ih h
  | case8 t acc f hcls v rest2 e hf =>
    intro h
    simp only [parseTokens, hcls, hf] at h
    cases h

/-- Claim C10: Function parse_args requires at least one URL (one-or-more arity): a
successful parse always returns a non-empty URL list; an argument vector that
yields no positional URL makes the parser fail with an argument error instead
of returning a namespace, so `main` never reaches `download_videos` with zero
URLs. -/
theorem parse_args_requires_url (fs : String → Bool) (argv : List String)
    (a : Args) (h : parse_args fs argv = .ok a) : a.urls ≠ [] := by
  unfold parse_args at h
  cases hpt : parseTokens argv {} with
  | error e => rw [hpt] at h; cases h
  | ok r =>
    rw [hpt] at h
    cases h
    simpa [normalizeArgs] using parseTokens_ok_urls argv {} r hpt

/-- Witness for C10: the one-URL vector parses, with a non-empty URL list;
the empty vector is rejected. -/
theorem parse_args_requires_url_witness :
    parse_args (fun _ => false) ["http://u"] = .ok argsHttpU ∧
    argsHttpU.urls ≠ [] ∧
    parse_args (fun _ => false) [] =
      .error "the following arguments are required: urls" :=
  ⟨rfl, parse_args_requires_url (fun _ => false) ["http://u"] argsHttpU rfl, rfl⟩

/-! ## The cookies-path claims -/

/-- Membership in a conditional segment of the options dictionary. -/
theorem mem_ite_nil (a : String × OptVal) (c : Prop) [Decidable c]
    (l : List (String × OptVal)) : a ∈ (if c then l else []) ↔ c ∧ a ∈ l := by
  split <;> simp_all

/-- The first half of claim C2 fails on the code at the concrete input
`-c ""`: under a parse-time filesystem on which no path is an existing file,
`parse_args` returns a cookies field of `some ""` — the empty string is falsy
in Python, so the existence check on line 321 is skipped and the field is
neither `None` nor a path that referenced an existing file. -/
theorem parse_args_keeps_empty_cookie_path :
    (parse_args (fun _ => false) ["http://u", "-c", ""]).map Args.cookies =
      .ok (some "") ∧
    (some "" : Option String) ≠ none := ⟨rfl, by decide⟩

/-- Claim C2, amended: After `parse_args` returns, the cookies field is `None`,
or the empty string (which survives the check because it is falsy), or a path
that `os.path.isfile` accepted at parse time; and `download_videos` re-checks
the path, so the options dictionary it builds carries a `cookiefile` entry
only for a non-empty path that is an existing file at download time
(`fsD` is `os.path.isfile` at download time). -/
theorem parse_args_cookies_invariant (fs fsD : String → Bool)
    (argv : List String) (a : Args) (h : parse_args fs argv = .ok a) :
    (a.cookies = none ∨ a.cookies = some "" ∨
      (pyTruthy a.cookies = true ∧ fs (a.cookies.getD "") = true)) ∧
    (∀ v, lookupOpt "cookiefile" (optsOf fsD a) = some v →
      ∃ p, v = .str p ∧ p ≠ "" ∧ fsD p = true) := by
  constructor
  · unfold parse_args at h
    cases hpt : parseTokens argv {} with
    | error e => rw [hpt] at h; cases h
    | ok r =>
      rw [hpt] at h
      cases h
      simp only [normalizeArgs]
      by_cases hcond : (pyTruthy r.cookies && !fs (r.cookies.getD "")) = true
      · rw [if_pos hcond]
        exact Or.inl rfl
      · rw [if_neg hcond]
        cases hx : pyTruthy r.cookies with
        | false =>
          cases hrc : r.cookies with
          | none => exact Or.inl rfl
          | some s =>
            refine Or.inr (Or.inl ?_)
            have : s = "" := by simpa [pyTruthy, hrc] using hx
            rw [this]
        | true =>
          refine Or.inr (Or.inr ⟨rfl, ?_⟩)
          cases hf : fs (r.cookies.getD "")
          · exact absurd (by rw [hx, hf]; rfl) hcond
          · rfl
  · intro v hv
    have hmem := lookupOpt_eq_some_mem "cookiefile" v _ hv
    unfold optsOf build_ytdl_opts at hmem
    simp [mem_ite_nil] at hmem
    obtain ⟨hc, hveq⟩ := hmem
    unfold cookiesForDownload at hc hveq
    by_cases hcc : (pyTruthy a.cookies && fsD (a.cookies.getD "")) = true
    · have hsplit := hcc
      rw [Bool.and_eq_true] at hsplit
      rw [if_pos hcc] at hveq
      refine ⟨a.cookies.getD "", hveq, ?_, hsplit.2⟩
      simpa [pyTruthy] using hsplit.1
    · rw [if_neg hcc] at hc
      simp [pyTruthy] at hc

/-- The namespace `parse_args` produces for `["http://u", "-c", "ck"]` when
`ck` is an existing file. -/
def argsWithCookie : Args :=
  { argsHttpU with cookies := some "ck" }

/-- Witness for the amended C2 at the concrete vector
`["http://u", "-c", "ck"]` under a filesystem where every path exists. -/
theorem parse_args_cookies_invariant_witness :
    argsWithCookie.cookies = none ∨ argsWithCookie.cookies = some "" ∨
      (pyTruthy argsWithCookie.cookies = true ∧
        (fun _ : String => true) (argsWithCookie.cookies.getD "") = true) :=
  (parse_args_cookies_invariant (fun _ => true) (fun _ => true)
    ["http://u", "-c", "ck"] argsWithCookie rfl).1

end YtdlHelper
